import Mathlib

/-!
Shallow embedding of the TracRelationsPlugin ticket-relations component
(src/tracrelations/ticket.py) together with the parts of the relation
storage layer that the handler relies on.  Pure data is modelled by Lean
structures, the database state by an explicit `Env` record, and fallible
operations by `Except`.
-/

namespace TracRelations

/-- The single-quote character, used to build wiki markup strings. -/
def sq : Char := '\x27'

/-- The two-character wiki italics marker. -/
def qq : String := String.mk [sq, sq]

/-- A stored relation row: `{ realm, source, dest, type, id }`.  The transient
`render_reverse` key that the handler puts into a relation's value dict is
modelled as the boolean field `renderReverse` (false for stored rows). -/
structure Relation where
  id : Nat
  realm : String
  source : Nat
  dest : Nat
  rtype : String
  renderReverse : Bool := false
deriving DecidableEq, Repr

/-- The fields of a Trac ticket that this component reads. -/
structure Ticket where
  id : Nat
  status : String
  resolution : String
  relationdata : String
deriving DecidableEq, Repr

/-- The persistent state the component touches: the ticket table, the relation
table, the auto-increment id counter, and the two auxiliary row sets
(`ticket_change` and `ticket_custom`) modelled as (ticket id, field name)
pairs. -/
structure Env where
  tickets : List Ticket
  relations : List Relation
  nextRelId : Nat
  ticketChangeRows : List (Nat × String)
  ticketCustomRows : List (Nat × String)
deriving DecidableEq, Repr

/-- Host-level ticket lookup by id (`Ticket(self.env, tkt_id)` succeeding). -/
def findTicket (env : Env) (i : Nat) : Option Ticket :=
  env.tickets.find? (fun t => decide (t.id = i))

/-- The exception kinds that appear in the translated code paths. -/
inductive PErr where
  | permissionError
  | resourceNotFound
  | valueError
  | validationError
  | resourceExistsError
  | typeError
  | indexError
deriving DecidableEq, Repr

/-- Message of the blocking-relation validation problem, with the blocking
ticket id substituted. -/
def blockMsg (i : Nat) : String :=
  "This ticket is blocked. It can" ++ String.mk [sq] ++
    "t be resolved while ticket #" ++ toString i ++ " is still open."

/-- Message of the parent-child validation problem, with the open child
ticket id substituted. -/
def childMsg (i : Nat) : String :=
  "This ticket is a parent. It can" ++ String.mk [sq] ++
    "t be resolved while ticket #" ++ toString i ++ " is still open."

/-- Message of the missing-duplicate-target validation problem. -/
def dupMsg (s : String) : String :=
  "Ticket " ++ s ++ " does not exist."

/-- Python `str.strip` with the character set consisting of the hash sign
and the space: removes those characters from both ends. -/
def stripChars (s : String) : String :=
  String.mk
    (((s.toList.dropWhile (fun c => decide (c = '#' ∨ c = ' '))).reverse.dropWhile
        (fun c => decide (c = '#' ∨ c = ' '))).reverse)

/-- Accumulator of the decimal interpretation of a digit list. -/
def parseNatAux : List Char → Nat → Nat
  | [], acc => acc
  | c :: cs, acc => parseNatAux cs (acc * 10 + (c.toNat - '0'.toNat))

/-- The conversion of a string to a ticket or relation number, as
`String.toNat?` computes it: defined on nonempty all-digit strings, reading
the digits in base ten. -/
def parseNat? (s : String) : Option Nat :=
  if s.toList ≠ [] ∧ s.toList.all Char.isDigit then some (parseNatAux s.toList 0)
  else none

/-- Modelled from the spec: `Relation.select` (model.py is not under src/)
returns the stored rows of the given realm with the given destination and
relation type, in storage order. -/
def selectBlocking (env : Env) (i : Nat) : List Relation :=
  env.relations.filter
    (fun r => decide (r.realm = "ticket" ∧ r.dest = i ∧ r.rtype = "blocking"))

/-- Modelled from the spec: `Relation.select` (model.py is not under src/)
returns the stored rows of the given realm with the given source and
relation type, in storage order. -/
def selectParentChild (env : Env) (i : Nat) : List Relation :=
  env.relations.filter
    (fun r => decide (r.realm = "ticket" ∧ r.source = i ∧ r.rtype = "parentchild"))

/-- True when the referenced ticket exists and its status differs from
closed; this is the condition under which a validation problem is yielded. -/
def openTkt (env : Env) (i : Nat) : Bool :=
  match findTicket env i with
  | some t => decide (t.status ≠ "closed")
  | none => false

/-- The loop shared by the two closure checks of `validate_ticket`: walk the
selected relations, load the ticket at `pick rel` (a missing ticket raises
ResourceNotFound), and yield a problem for each one that is not closed. -/
def checkRels (env : Env) (pick : Relation → Nat) (msg : Nat → String) :
    List Relation → Except PErr (List (Option String × String))
  | [] => .ok []
  | rel :: rest =>
    match findTicket env (pick rel) with
    | none => .error .resourceNotFound
    | some tkt =>
      match checkRels env pick msg rest with
      | .error e => .error e
      | .ok tail =>
        if tkt.status ≠ "closed" then .ok ((none, msg (pick rel)) :: tail)
        else .ok tail

/-- `TicketRelations.validate_ticket`: on a closed ticket, yield one problem
per open blocking source and one per open parent-child destination; when the
resolution is duplicate, additionally check that the ticket named by the
stripped `relationdata` field exists. -/
def validate_ticket (env : Env) (t : Ticket) :
    Except PErr (List (Option String × String)) :=
  let part1 : Except PErr (List (Option String × String)) :=
    if t.status = "closed" then
      match checkRels env (fun r => r.source) blockMsg (selectBlocking env t.id) with
      | .error e => .error e
      | .ok bp =>
        match checkRels env (fun r => r.dest) childMsg (selectParentChild env t.id) with
        | .error e => .error e
        | .ok pp => .ok (bp ++ pp)
    else .ok []
  match part1 with
  | .error e => .error e
  | .ok probs =>
    if t.resolution = "duplicate" then
      let tid := stripChars t.relationdata
      match parseNat? tid with
      | none => .ok (probs ++ [(none, dupMsg tid)])
      | some n =>
        match findTicket env n with
        | none => .ok (probs ++ [(none, dupMsg tid)])
        | some _ => .ok probs
    else .ok probs

/-- The four relation types for which `TktRelation.relations` provides labels. -/
def recognized (ty : String) : Bool :=
  decide (ty = "blocking") || decide (ty = "relation") ||
    decide (ty = "parentchild") || decide (ty = "duplicate")

/-- Modelled from the spec: `RelationSystem.add_relation` (api.py is not under
src/).  Rejects when the type is unrecognized or the source or destination
does not resolve to an existing ticket (ValidationError, also covering the
int conversion), or when an identical `(realm, source, dest, type)` row
already exists (ResourceExistsError); otherwise appends the row under a fresh
auto-increment id. -/
def add_relation (env : Env) (rel : Relation) : Except PErr Env :=
  if !recognized rel.rtype then .error .validationError
  else if (findTicket env rel.source).isNone || (findTicket env rel.dest).isNone then
    .error .validationError
  else if env.relations.any (fun r =>
      decide (r.realm = rel.realm ∧ r.source = rel.source ∧
        r.dest = rel.dest ∧ r.rtype = rel.rtype)) then
    .error .resourceExistsError
  else
    .ok { env with
      relations := env.relations ++ [{ rel with id := env.nextRelId, renderReverse := false }],
      nextRelId := env.nextRelId + 1 }

/-- Modelled from the spec: `RelationSystem.delete_relation` (api.py is not
under src/) removes exactly the row with the given relation id. -/
def delete_relation (env : Env) (rel : Relation) : Env :=
  { env with relations := env.relations.filter (fun r => decide (r.id ≠ rel.id)) }

/-- The request data the handler reads: method, path, single-valued form
arguments, the multi-valued `sel` argument, and the granted permissions. -/
structure Req where
  method : String
  path_info : String
  args : List (String × String)
  sel : List String
  perms : List String
deriving DecidableEq, Repr

/-- `req.args.get(key)`. -/
def getArg (req : Req) (k : String) : Option String :=
  (req.args.find? (fun p => decide (p.1 = k))).map (fun p => p.2)

/-- Python truthiness of an optional form value: present and nonempty. -/
def truthy : Option String → Bool
  | none => false
  | some s => !decide (s = "")

/-- Membership of a capability string in the granted permissions. -/
def hasPerm (req : Req) (p : String) : Bool :=
  req.perms.contains p

/-- `req.args[key] = value`: replace the value of an existing key, else add. -/
def setArg : List (String × String) → String → String → List (String × String)
  | [], k, v => [(k, v)]
  | (k0, v0) :: rest, k, v =>
    if k0 = k then (k, v) :: rest else (k0, v0) :: setArg rest k v

/-- Strip a literal prefix off a character list, returning the remainder. -/
def dropPre : List Char → List Char → Option (List Char)
  | [], l => some l
  | _ :: _, [] => none
  | p :: ps, c :: cs => if p = c then dropPre ps cs else none

/-- The regular expression match of `match_request`:
`re.match(r'/ticket/([0-9]+)/relations/*$', path)`, returning the captured
digit group.  Python re anchors `$` at the end of the string or just before a
newline that ends the string. -/
def matchRelPath (s : String) : Option String :=
  match dropPre "/ticket/".toList s.toList with
  | none => none
  | some r1 =>
    let ds := r1.takeWhile Char.isDigit
    let r2 := r1.dropWhile Char.isDigit
    if ds = [] then none
    else
      match dropPre "/relations".toList r2 with
      | none => none
      | some r3 =>
        let r4 := r3.dropWhile (fun c => decide (c = '/'))
        if r4 = [] ∨ r4 = ['\n'] then some (String.mk ds) else none

/-- `TicketRelations.match_request`: on a match, store the captured ticket id
in the request arguments and return true; otherwise leave the request as it
is and return false. -/
def match_request (req : Req) : Bool × Req :=
  match matchRelPath req.path_info with
  | none => (false, req)
  | some d => (true, { req with args := setArg req.args "id" d })

/-- Modelled from the spec: the `Relation` constructor converts the submitted
source and destination strings to ticket numbers, raising ValueError when a
value is not numeric. -/
def mkRelParsed (env : Env) (srcS destS ty : String) : Except PErr Relation :=
  match parseNat? srcS, parseNat? destS with
  | some s, some d => .ok ⟨env.nextRelId, "ticket", s, d, ty, false⟩
  | _, _ => .error .valueError

/-- The body of the add-relation branch: an empty type string makes the
subscript `rel_type[0]` raise IndexError; a leading exclamation mark swaps
source and destination and drops the marker; the built relation is then
handed to `add_relation`. -/
def addAttempt (env : Env) (cs os ty : String) : Except PErr (Env × Relation) :=
  if ty = "" then .error .indexError
  else
    match (if ty.front = '!' then mkRelParsed env os cs (ty.drop 1)
           else mkRelParsed env cs os ty) with
    | .error e => .error e
    | .ok rel =>
      match add_relation env rel with
      | .error e => .error e
      | .ok envAfter => .ok (envAfter, rel)

/-- The exception kinds caught by the add-relation branch
(`ValueError, ValidationError, ResourceExistsError`). -/
def caughtErr : PErr → Bool
  | .valueError => true
  | .validationError => true
  | .resourceExistsError => true
  | _ => false

/-- Modelled from the spec: the both-ways arrow glyph `Relation.arrow_both`
(model.py is not under src/). -/
def arrowBoth : String := "<->"

/-- The success notice of the add-relation branch. -/
def noticeAdd (rel : Relation) : String :=
  "Relation #" ++ toString rel.source ++ " " ++ arrowBoth ++ " #" ++
    toString rel.dest ++ " added."

/-- The success notice of the remove-relation branch. -/
def noticeDel (rel : Relation) : String :=
  "Deleted relation #" ++ toString rel.source ++ " " ++ arrowBoth ++ " #" ++
    toString rel.dest

/-- The user-visible warning text produced from a caught exception. -/
def warnMsg : PErr → String
  | .valueError => "invalid ticket id"
  | .validationError => "validation failed"
  | .resourceExistsError => "relation already exists"
  | _ => "error"

/-- The remove-relation loop: for each selected id, load the relation by id
(a missing or non-numeric id raises ResourceNotFound, aborting the loop and
keeping the deletions already made), delete it and add a notice. -/
def removeLoop : Env → List String → List String → Env × List String × Option PErr
  | env, notices, [] => (env, notices, none)
  | env, notices, s :: rest =>
    match parseNat? s with
    | none => (env, notices, some .resourceNotFound)
    | some rid =>
      match env.relations.find? (fun r => decide (r.id = rid)) with
      | none => (env, notices, some .resourceNotFound)
      | some rel => removeLoop (delete_relation env rel) (notices ++ [noticeDel rel]) rest

/-- The POST body of `process_request`: the add-relation branch builds and
stores a relation, converting caught exceptions into warnings; otherwise the
remove-relation branch deletes the selected rows; otherwise nothing happens.
The last component is an uncaught exception, if any. -/
def postAction (env : Env) (req : Req) : Env × List String × List String × Option PErr :=
  if truthy (getArg req "add-relation") then
    match getArg req "current-tkt", getArg req "other-tkt", getArg req "relation-type" with
    | some cs, some os, some ty =>
      match addAttempt env cs os ty with
      | .ok (envAfter, rel) => (envAfter, [], [noticeAdd rel], none)
      | .error e =>
        if caughtErr e then (env, [warnMsg e], [], none) else (env, [], [], some e)
    | _, _, _ => (env, [], [], some .typeError)
  else if truthy (getArg req "remove-relation") then
    match removeLoop env [] req.sel with
    | (envAfter, ns, err) => (envAfter, [], ns, err)
  else (env, [], [], none)

/-- The responses `process_request` can produce. -/
inductive Resp where
  | redirect (url : String)
  | page (template : String)
deriving DecidableEq, Repr

/-- The observable outcome of one call of `process_request`: the resulting
state, the warnings and notices added to the request, and either a response
or a raised exception. -/
structure ProcResult where
  env : Env
  warnings : List String
  notices : List String
  outcome : Except PErr Resp
deriving Repr

/-- Resolve the ticket named by the `id` request argument
(`Ticket(self.env, tkt_id)`). -/
def resolveTkt (env : Env) (req : Req) : Option Ticket :=
  ((getArg req "id").bind parseNat?).bind (findTicket env)

/-- `TicketRelations.process_request`: check TICKET_VIEW, load the ticket,
for POST check TICKET_MODIFY and run the add or remove action followed by a
redirect; for GET render the management page or fragment. -/
def process_request (env : Env) (req : Req) : ProcResult :=
  if !hasPerm req "TICKET_VIEW" then ⟨env, [], [], .error .permissionError⟩
  else
    match resolveTkt env req with
    | none => ⟨env, [], [], .error .resourceNotFound⟩
    | some tkt =>
      let isFragment := truthy (getArg req "format")
      if req.method = "POST" then
        if !hasPerm req "TICKET_MODIFY" then ⟨env, [], [], .error .permissionError⟩
        else
          match postAction env req with
          | (envAfter, ws, ns, some e) => ⟨envAfter, ws, ns, .error e⟩
          | (envAfter, ws, ns, none) =>
            ⟨envAfter, ws, ns,
              .ok (.redirect (if isFragment then "/ticket/" ++ toString tkt.id
                              else req.path_info))⟩
      else
        ⟨env, [], [], .ok (.page (if isFragment then "ticket_relations_fragment.html"
                                  else "manage_ticket_relations.html"))⟩

/-- Delete the transient `relationdata` rows of a ticket from the
`ticket_change` and `ticket_custom` tables. -/
def deleteRelDataRows (env : Env) (i : Nat) : Env :=
  { env with
    ticketChangeRows := env.ticketChangeRows.filter
      (fun rw => decide (¬ (rw.1 = i ∧ rw.2 = "relationdata"))),
    ticketCustomRows := env.ticketCustomRows.filter
      (fun rw => decide (¬ (rw.1 = i ∧ rw.2 = "relationdata"))) }

/-- `TicketRelations.ticket_changed`: when the resolution changed to
duplicate, store an automatic duplicate relation towards the ticket named by
the stripped `relationdata` value (exceptions of `add_relation` and of the
int conversion propagate); then delete the transient `relationdata` rows. -/
def ticket_changed (env : Env) (t : Ticket) (oldHasResolution : Bool) :
    Except PErr Env :=
  let step1 : Except PErr Env :=
    if oldHasResolution then
      if t.resolution = "duplicate" then
        match parseNat? (stripChars t.relationdata) with
        | none => .error .valueError
        | some d => add_relation env ⟨0, "ticket", t.id, d, "duplicate", false⟩
      else .ok env
    else .ok env
  step1.map (fun envAfter => deleteRelDataRows envAfter t.id)

/-- `TicketRelations.ticket_created`: delete the transient `relationdata`
row from the `ticket_custom` table. -/
def ticket_created (env : Env) (t : Ticket) : Env :=
  { env with
    ticketCustomRows := env.ticketCustomRows.filter
      (fun rw => decide (¬ (rw.1 = t.id ∧ rw.2 = "relationdata"))) }

/-- The label pairs of `TktRelation.relations`; an unknown type falls back to
the pair `(type, type)`. -/
def relLabels (ty : String) : String × String :=
  if ty = "blocking" then ("is blocking", "is blocked by")
  else if ty = "relation" then ("relates to", "is related to")
  else if ty = "parentchild" then ("is parent of", "is child of")
  else if ty = "duplicate" then ("is duplicate of", "is duplicated by")
  else (ty, ty)

/-- The data dict handed to `TktRelation.render`: whether a truthy request is
present, and the optional `format` entry. -/
structure RenderData where
  reqPresent : Bool
  format : Option String
deriving DecidableEq, Repr

/-- `TktRelation.render`.  The host formatter that turns wiki text into HTML
markup for the non-wiki format is an external collaborator, passed in as the
abstract function `fmtOneliner`. -/
def render (fmtOneliner : String → String) (rel : Relation) (data : RenderData) :
    String :=
  let reverse := rel.renderReverse
  if !data.reqPresent then ""
  else
    let typelbl := if reverse then (relLabels rel.rtype).2 else (relLabels rel.rtype).1
    let wiki :=
      if !reverse then
        "!#" ++ toString rel.source ++ " " ++ qq ++ typelbl ++ qq ++ " #" ++
          toString rel.dest
      else
        "!#" ++ toString rel.dest ++ " " ++ qq ++ typelbl ++ qq ++ " #" ++
          toString rel.source
    if data.format.getD "wiki" = "wiki" then wiki else fmtOneliner wiki

/-- The operations of the component that can touch the stored relations. -/
inductive Op where
  | procReq (req : Req)
  | tktChanged (t : Ticket) (oldHasResolution : Bool)
  | tktCreated (t : Ticket)
deriving DecidableEq, Repr

/-- One operation applied to the state; a propagated exception leaves the
state with the changes made before the raise (none, for the operations whose
exceptions happen before any write). -/
def step (env : Env) : Op → Env
  | .procReq req => (process_request env req).env
  | .tktChanged t o =>
    match ticket_changed env t o with
    | .ok envAfter => envAfter
    | .error _ => env
  | .tktCreated t => ticket_created env t

/-- The operation is a POST of the add-relation form action. -/
def isAddOp : Op → Bool
  | .procReq req => decide (req.method = "POST") && truthy (getArg req "add-relation")
  | _ => false

/-- The operation is a POST of the remove-relation action. -/
def isRemoveOp : Op → Bool
  | .procReq req =>
    decide (req.method = "POST") && !truthy (getArg req "add-relation") &&
      truthy (getArg req "remove-relation")
  | _ => false

/-- The operation is a ticket change whose resolution became duplicate. -/
def isDupResolveOp : Op → Bool
  | .tktChanged t o => o && decide (t.resolution = "duplicate")
  | _ => false

/-- The path shape the specification describes for `match_request`: slash
ticket slash digits slash relations, optional trailing slashes, nothing
after. -/
def relPathSpec (s : String) : Prop :=
  ∃ ds k, ds ≠ [] ∧ (∀ c ∈ ds, c.isDigit = true) ∧
    s.toList = "/ticket/".toList ++ ds ++ "/relations".toList ++ List.replicate k '/'

/-- The path shape the code accepts: the shape of `relPathSpec`, optionally
followed by one final newline character, because Python re anchors the
dollar sign also just before a newline that ends the string. -/
def relPathSpecPy (s : String) : Prop :=
  ∃ ds k, ds ≠ [] ∧ (∀ c ∈ ds, c.isDigit = true) ∧
    (s.toList = "/ticket/".toList ++ ds ++ "/relations".toList ++
        List.replicate k '/' ∨
     s.toList = "/ticket/".toList ++ ds ++ "/relations".toList ++
        List.replicate k '/' ++ ['\n'])

/-- A request whose path carries a trailing newline. -/
def reqNl : Req :=
  { method := "GET", path_info := "/ticket/1/relations\n", args := [],
    sel := [], perms := [] }

/-- Fixture: three tickets and three relations, used by concrete instances. -/
def envW : Env :=
  { tickets := [⟨1, "closed", "fixed", ""⟩, ⟨2, "new", "", ""⟩,
                ⟨3, "closed", "", ""⟩],
    relations := [⟨10, "ticket", 2, 1, "blocking", false⟩,
                  ⟨11, "ticket", 3, 1, "blocking", false⟩,
                  ⟨12, "ticket", 1, 2, "parentchild", false⟩],
    nextRelId := 13, ticketChangeRows := [], ticketCustomRows := [] }

/-- Fixture: the closed ticket number one of `envW`. -/
def tktW : Ticket := ⟨1, "closed", "fixed", ""⟩

/-- Fixture: the validation problems of `tktW` in `envW`. -/
def probsW : List (Option String × String) :=
  [(none, blockMsg 2), (none, childMsg 2)]

/-- Fixture: an add-relation POST duplicating a stored relation. -/
def reqW3 : Req :=
  { method := "POST", path_info := "/ticket/1/relations",
    args := [("id", "1"), ("add-relation", "Add"), ("current-tkt", "2"),
             ("other-tkt", "1"), ("relation-type", "blocking")],
    sel := [], perms := ["TICKET_VIEW", "TICKET_MODIFY"] }

/-- Fixture: a remove-relation POST selecting row ten. -/
def reqW4 : Req :=
  { method := "POST", path_info := "/ticket/1/relations",
    args := [("id", "1"), ("remove-relation", "Remove")],
    sel := ["10"], perms := ["TICKET_VIEW", "TICKET_MODIFY"] }

/-- Fixture: a request without any permission. -/
def reqW6a : Req :=
  { method := "GET", path_info := "/ticket/1/relations",
    args := [("id", "1")], sel := [], perms := [] }

/-- Fixture: a request naming a ticket that does not exist. -/
def reqW6b : Req :=
  { method := "GET", path_info := "/ticket/99/relations",
    args := [("id", "99")], sel := [], perms := ["TICKET_VIEW"] }

/-- Fixture: a POST without the modify permission. -/
def reqW6c : Req :=
  { method := "POST", path_info := "/ticket/1/relations",
    args := [("id", "1")], sel := [], perms := ["TICKET_VIEW"] }

/-- Fixture: an add-relation POST with an unrecognized relation type. -/
def reqW6d : Req :=
  { method := "POST", path_info := "/ticket/1/relations",
    args := [("id", "1"), ("add-relation", "Add"), ("current-tkt", "1"),
             ("other-tkt", "2"), ("relation-type", "bogus")],
    sel := [], perms := ["TICKET_VIEW", "TICKET_MODIFY"] }

/-- Fixture: an add-relation POST with a reversed relation type. -/
def reqW9 : Req :=
  { method := "POST", path_info := "/ticket/1/relations",
    args := [("id", "1"), ("add-relation", "Add"), ("current-tkt", "1"),
             ("other-tkt", "3"), ("relation-type", "!relation")],
    sel := [], perms := ["TICKET_VIEW", "TICKET_MODIFY"] }

/-- Fixture: a request with a matching path and trailing slashes. -/
def reqW8 : Req :=
  { method := "GET", path_info := "/ticket/42/relations//",
    args := [("x", "y")], sel := [], perms := [] }

/-- Fixture: state with leftover transient `relationdata` rows. -/
def envW7 : Env :=
  { envW with ticketChangeRows := [(1, "relationdata"), (1, "status")],
              ticketCustomRows := [(1, "relationdata"), (2, "relationdata")] }

/-- Fixture: the state after `ticket_changed` cleaned `envW7`. -/
def envW7after : Env :=
  { envW with ticketChangeRows := [(1, "status")],
              ticketCustomRows := [(2, "relationdata")] }

/-- Fixture: the state of the lifecycle counterexample, one open ticket being
resolved as a duplicate of another. -/
def envC5 : Env :=
  { tickets := [⟨1, "closed", "duplicate", "2"⟩, ⟨2, "new", "", ""⟩],
    relations := [], nextRelId := 0, ticketChangeRows := [],
    ticketCustomRows := [] }

/-- Fixture: the ticket change that resolves ticket one as a duplicate. -/
def opC5 : Op := .tktChanged ⟨1, "closed", "duplicate", "2"⟩ true

/-- Fixture: the relation that `opC5` creates. -/
def relC5 : Relation := ⟨0, "ticket", 1, 2, "duplicate", false⟩

/-- Fixture: the first stored relation of `envW`. -/
def relB : Relation := ⟨10, "ticket", 2, 1, "blocking", false⟩

/-- Fixture: a relation of an unrecognized type. -/
def relWeirdW : Relation := ⟨10, "ticket", 2, 1, "weird", false⟩

/-- A successful Except.map run comes from a successful inner run. -/
theorem exceptMap_ok {ε α β : Type} (f : α → β) (e : Except ε α) (b : β)
    (h : e.map f = .ok b) : ∃ a, e = .ok a ∧ b = f a := by
  cases e with
  | error err => simp [Except.map] at h
  | ok a => exact ⟨a, rfl, by simpa [Except.map] using h.symm⟩

/-- On a successful run, the check loop yields exactly one problem per
selected relation whose picked ticket exists and is not closed, in order. -/
theorem checkRels_ok (env : Env) (pick : Relation → Nat) (msg : Nat → String) :
    ∀ rels probs, checkRels env pick msg rels = .ok probs →
      probs = (rels.filter (fun r => openTkt env (pick r))).map
        (fun r => ((none : Option String), msg (pick r))) := by
  intro rels
  induction rels with
  | nil => intro probs h; simp [checkRels] at h; simp [← h]
  | cons rel rest ih =>
    intro probs h
    simp only [checkRels] at h
    cases hf : findTicket env (pick rel) with
    | none => rw [hf] at h; simp at h
    | some tkt =>
      rw [hf] at h
      cases hc : checkRels env pick msg rest with
      | error e => rw [hc] at h; simp at h
      | ok tail =>
        rw [hc] at h
        dsimp only at h
        have htail := ih tail hc
        by_cases hst : tkt.status = "closed"
        · rw [if_neg (by simp [hst])] at h
          simp only [Except.ok.injEq] at h
          rw [← h, htail]
          simp [List.filter_cons, openTkt, hf, hst]
        · rw [if_pos (by simp [hst])] at h
          simp only [Except.ok.injEq] at h
          rw [← h, htail]
          simp [List.filter_cons, openTkt, hf, hst]

/-- On a closed ticket, a successful validation run splits into the blocking
problems, the parent-child problems, and the duplicate-target problems. -/
theorem validate_ticket_decomp (env : Env) (t : Ticket)
    (probs : List (Option String × String))
    (hst : t.status = "closed")
    (hok : validate_ticket env t = .ok probs) :
    ∃ bp pp extra,
      checkRels env (fun r => r.source) blockMsg (selectBlocking env t.id) = .ok bp ∧
      checkRels env (fun r => r.dest) childMsg (selectParentChild env t.id) = .ok pp ∧
      probs = bp ++ pp ++ extra := by
  unfold validate_ticket at hok
  rw [if_pos hst] at hok
  cases hb : checkRels env (fun r => r.source) blockMsg (selectBlocking env t.id) with
  | error e => rw [hb] at hok; simp at hok
  | ok bp =>
    rw [hb] at hok
    cases hp : checkRels env (fun r => r.dest) childMsg (selectParentChild env t.id) with
    | error e => rw [hp] at hok; simp at hok
    | ok pp =>
      rw [hp] at hok
      dsimp only at hok
      refine ⟨bp, pp, ?_⟩
      by_cases hres : t.resolution = "duplicate"
      · rw [if_pos hres] at hok
        cases hn : parseNat? (stripChars t.relationdata) with
        | none =>
          rw [hn] at hok
          dsimp only at hok
          simp only [Except.ok.injEq] at hok
          exact ⟨[(none, dupMsg (stripChars t.relationdata))], rfl, rfl, by simp [← hok]⟩
        | some n =>
          rw [hn] at hok
          dsimp only at hok
          cases hft : findTicket env n with
          | none =>
            rw [hft] at hok
            dsimp only at hok
            simp only [Except.ok.injEq] at hok
            exact ⟨[(none, dupMsg (stripChars t.relationdata))], rfl, rfl, by simp [← hok]⟩
          | some tk =>
            rw [hft] at hok
            dsimp only at hok
            simp only [Except.ok.injEq] at hok
            exact ⟨[], rfl, rfl, by simp [← hok]⟩
      · rw [if_neg hres] at hok
        simp only [Except.ok.injEq] at hok
        exact ⟨[], rfl, rfl, by simp [← hok]⟩

/-- C1: when a closed ticket is validated successfully, the problem list
starts with exactly one `(None, message)` problem, naming the blocking
ticket, for each blocking relation targeting this ticket whose source ticket
is not closed; with any such relation present the closure is rejected. -/
theorem closed_ticket_blocking_problems (env : Env) (t : Ticket)
    (probs : List (Option String × String))
    (hst : t.status = "closed")
    (hok : validate_ticket env t = .ok probs) :
    ∃ rest, probs =
      ((selectBlocking env t.id).filter (fun r => openTkt env r.source)).map
        (fun r => ((none : Option String), blockMsg r.source)) ++ rest := by
  obtain ⟨bp, pp, extra, hb, hp, hsplit⟩ := validate_ticket_decomp env t probs hst hok
  refine ⟨pp ++ extra, ?_⟩
  rw [hsplit, checkRels_ok env _ _ _ bp hb]
  simp

/-- C2: when a closed ticket is validated successfully, the problem list
contains, contiguously and in order, exactly one `(None, message)` problem,
naming the open child, for each parentchild relation sourced at this ticket
whose destination ticket is not closed; with any such relation present the
closure of the parent is rejected. -/
theorem closed_ticket_parentchild_problems (env : Env) (t : Ticket)
    (probs : List (Option String × String))
    (hst : t.status = "closed")
    (hok : validate_ticket env t = .ok probs) :
    ∃ pre rest, probs = pre ++
      ((selectParentChild env t.id).filter (fun r => openTkt env r.dest)).map
        (fun r => ((none : Option String), childMsg r.dest)) ++ rest := by
  obtain ⟨bp, pp, extra, hb, hp, hsplit⟩ := validate_ticket_decomp env t probs hst hok
  refine ⟨bp, extra, ?_⟩
  rw [hsplit, checkRels_ok env _ _ _ pp hp]

/-- C7: a run of `ticket_changed` that returns normally leaves no
`relationdata` row for the ticket in either auxiliary table, and
`ticket_created` leaves no `relationdata` row in the `ticket_custom` table. -/
theorem relationdata_rows_deleted :
    (∀ env t old envAfter, ticket_changed env t old = .ok envAfter →
      (∀ rw ∈ envAfter.ticketChangeRows, ¬ (rw.1 = t.id ∧ rw.2 = "relationdata")) ∧
      (∀ rw ∈ envAfter.ticketCustomRows, ¬ (rw.1 = t.id ∧ rw.2 = "relationdata"))) ∧
    (∀ env t, ∀ rw ∈ (ticket_created env t).ticketCustomRows,
      ¬ (rw.1 = t.id ∧ rw.2 = "relationdata")) := by
  constructor
  · intro env t old envAfter hok
    unfold ticket_changed at hok
    obtain ⟨x, hx, hAfter⟩ := exceptMap_ok _ _ _ hok
    rw [hAfter]
    constructor <;> intro row hrow <;>
      · simp only [deleteRelDataRows] at hrow
        have h2 := (List.mem_filter.mp hrow).2
        simpa only [decide_eq_true_eq] using h2
  · intro env t row hrow
    simp only [ticket_created] at hrow
    have h2 := (List.mem_filter.mp hrow).2
    simpa only [decide_eq_true_eq] using h2

/-- C10: without a truthy request entry `render` returns the empty string;
with one, and with the format entry absent or equal to wiki, it returns the
wiki text in which source and destination appear in swapped display order
exactly when `render_reverse` is set; an unrecognized relation type is used
verbatim as its own label. -/
theorem render_cases (f : String → String) (rel : Relation) (data : RenderData) :
    (data.reqPresent = false → render f rel data = "") ∧
    (data.reqPresent = true → (data.format = none ∨ data.format = some "wiki") →
      render f rel data =
        (if rel.renderReverse then
          "!#" ++ toString rel.dest ++ " " ++ qq ++ (relLabels rel.rtype).2 ++ qq ++
            " #" ++ toString rel.source
        else
          "!#" ++ toString rel.source ++ " " ++ qq ++ (relLabels rel.rtype).1 ++ qq ++
            " #" ++ toString rel.dest)) ∧
    (recognized rel.rtype = false → relLabels rel.rtype = (rel.rtype, rel.rtype)) := by
  refine ⟨?_, ?_, ?_⟩
  · intro h; simp [render, h]
  · intro h hf
    rcases hf with hf | hf <;>
      · simp only [render, h, hf, Bool.not_true, Bool.false_eq_true, if_false,
          Option.getD_none, Option.getD_some, if_pos rfl]
        cases rel.renderReverse <;> simp
  · intro h
    simp only [recognized, Bool.or_eq_false_iff, decide_eq_false_iff_not] at h
    obtain ⟨⟨⟨h1, h2⟩, h3⟩, h4⟩ := h
    simp [relLabels, h1, h2, h3, h4]

/-- When an identical `(realm, source, dest, type)` row already exists,
`add_relation` raises, and the exception is one the handler catches. -/
theorem add_relation_dup_error (env : Env) (rel : Relation)
    (hdup : ∃ r ∈ env.relations, r.realm = rel.realm ∧ r.source = rel.source ∧
      r.dest = rel.dest ∧ r.rtype = rel.rtype) :
    ∃ e, add_relation env rel = .error e ∧ caughtErr e = true := by
  have hany : env.relations.any (fun r =>
      decide (r.realm = rel.realm ∧ r.source = rel.source ∧
        r.dest = rel.dest ∧ r.rtype = rel.rtype)) = true := by
    rw [List.any_eq_true]
    obtain ⟨r, hr, h⟩ := hdup
    exact ⟨r, hr, by simpa using h⟩
  unfold add_relation
  cases hrec : recognized rel.rtype with
  | false => exact ⟨.validationError, by rw [if_pos (by simp)], rfl⟩
  | true =>
    cases hmiss : ((findTicket env rel.source).isNone || (findTicket env rel.dest).isNone) with
    | true =>
      exact ⟨.validationError, by rw [if_neg (by simp), if_pos rfl], rfl⟩
    | false =>
      exact ⟨.resourceExistsError,
        by rw [if_neg (by simp), if_neg (by simp), if_pos hany], rfl⟩

/-- Every exception `add_relation` raises is one the handler catches. -/
theorem add_relation_error_caught (env : Env) (rel : Relation) (e : PErr)
    (h : add_relation env rel = .error e) : caughtErr e = true := by
  unfold add_relation at h
  split at h
  · simp only [Except.error.injEq] at h; subst h; rfl
  · split at h
    · simp only [Except.error.injEq] at h; subst h; rfl
    · split at h
      · simp only [Except.error.injEq] at h; subst h; rfl
      · simp at h

/-- A failing add attempt with a caught exception turns into a single
warning, no notice, and an unchanged state. -/
theorem postAction_add_warning (env : Env) (req : Req) (cs os ty : String) (e : PErr)
    (hadd : truthy (getArg req "add-relation") = true)
    (hcs : getArg req "current-tkt" = some cs)
    (hos : getArg req "other-tkt" = some os)
    (hty : getArg req "relation-type" = some ty)
    (herr : addAttempt env cs os ty = .error e)
    (hc : caughtErr e = true) :
    postAction env req = (env, [warnMsg e], [], none) := by
  unfold postAction
  rw [hadd, hcs, hos, hty]
  simp [herr, hc]

/-- A successful add attempt turns into a single notice and no warning. -/
theorem postAction_add_ok (env : Env) (req : Req) (cs os ty : String)
    (envAfter : Env) (rel : Relation)
    (hadd : truthy (getArg req "add-relation") = true)
    (hcs : getArg req "current-tkt" = some cs)
    (hos : getArg req "other-tkt" = some os)
    (hty : getArg req "relation-type" = some ty)
    (hok : addAttempt env cs os ty = .ok (envAfter, rel)) :
    postAction env req = (envAfter, [], [noticeAdd rel], none) := by
  unfold postAction
  rw [hadd, hcs, hos, hty]
  simp [hok]

/-- Under view and modify permission and a resolving ticket id, a POST whose
action raises nothing uncaught ends in the state, warnings and notices of
`postAction` followed by a redirect. -/
theorem process_request_post_none (env : Env) (req : Req) (tkt : Ticket)
    (envAfter : Env) (ws ns : List String)
    (hview : hasPerm req "TICKET_VIEW" = true)
    (hres : resolveTkt env req = some tkt)
    (hm : req.method = "POST")
    (hmod : hasPerm req "TICKET_MODIFY" = true)
    (hpa : postAction env req = (envAfter, ws, ns, none)) :
    process_request env req =
      ⟨envAfter, ws, ns,
        .ok (.redirect (if truthy (getArg req "format") then
          "/ticket/" ++ toString tkt.id else req.path_info))⟩ := by
  simp [process_request, hview, hres, hm, hmod, hpa]

/-- C3: an add-relation POST whose submitted relation (after the optional
reversal) duplicates a stored `(realm, source, dest, type)` combination is
rejected: the state is unchanged, the exception becomes one user-visible
warning, and no success notice is added; the request still completes with a
redirect. -/
theorem duplicate_add_rejected (env : Env) (req : Req) (tkt : Ticket)
    (cs os ty : String) (c o : Nat)
    (hview : hasPerm req "TICKET_VIEW" = true)
    (hres : resolveTkt env req = some tkt)
    (hm : req.method = "POST")
    (hmod : hasPerm req "TICKET_MODIFY" = true)
    (hadd : truthy (getArg req "add-relation") = true)
    (hcs : getArg req "current-tkt" = some cs)
    (hos : getArg req "other-tkt" = some os)
    (hty : getArg req "relation-type" = some ty)
    (htyne : ty ≠ "")
    (hc : parseNat? cs = some c) (ho : parseNat? os = some o)
    (hdup : ∃ r ∈ env.relations, r.realm = "ticket" ∧
      r.source = (if ty.front = '!' then o else c) ∧
      r.dest = (if ty.front = '!' then c else o) ∧
      r.rtype = (if ty.front = '!' then ty.drop 1 else ty)) :
    (process_request env req).env = env ∧
    (∃ w, (process_request env req).warnings = [w]) ∧
    (process_request env req).notices = [] ∧
    ∃ u, (process_request env req).outcome = .ok (.redirect u) := by
  have hrel : ∃ rel : Relation,
      (if ty.front = '!' then mkRelParsed env os cs (ty.drop 1)
       else mkRelParsed env cs os ty) = .ok rel ∧
      rel.realm = "ticket" ∧
      rel.source = (if ty.front = '!' then o else c) ∧
      rel.dest = (if ty.front = '!' then c else o) ∧
      rel.rtype = (if ty.front = '!' then ty.drop 1 else ty) := by
    by_cases hb : ty.front = '!'
    · exact ⟨⟨env.nextRelId, "ticket", o, c, ty.drop 1, false⟩,
        by simp [hb, mkRelParsed, hc, ho], rfl, by simp [hb], by simp [hb], by simp [hb]⟩
    · exact ⟨⟨env.nextRelId, "ticket", c, o, ty, false⟩,
        by simp [hb, mkRelParsed, hc, ho], rfl, by simp [hb], by simp [hb], by simp [hb]⟩
  obtain ⟨rel, hmk, hr1, hr2, hr3, hr4⟩ := hrel
  obtain ⟨e, herr, hcaught⟩ := add_relation_dup_error env rel
    (by rw [hr1, hr2, hr3, hr4]; exact hdup)
  have hatt : addAttempt env cs os ty = .error e := by
    unfold addAttempt
    rw [if_neg htyne, hmk]
    simp [herr]
  have hpa := postAction_add_warning env req cs os ty e hadd hcs hos hty hatt hcaught
  rw [process_request_post_none env req tkt env [warnMsg e] [] hview hres hm hmod hpa]
  exact ⟨rfl, ⟨warnMsg e, rfl⟩, rfl, ⟨_, rfl⟩⟩

/-- C9: on an add-relation POST, whenever a relation row is stored, a type
starting with the exclamation mark stores the reversed relation, with source
the submitted other ticket, destination the submitted current ticket, and the
marker dropped from the type; otherwise source and destination are stored as
submitted. -/
theorem add_relation_reversal (env : Env) (req : Req) (tkt : Ticket)
    (cs os ty : String) (c o : Nat)
    (hview : hasPerm req "TICKET_VIEW" = true)
    (hres : resolveTkt env req = some tkt)
    (hm : req.method = "POST")
    (hmod : hasPerm req "TICKET_MODIFY" = true)
    (hadd : truthy (getArg req "add-relation") = true)
    (hcs : getArg req "current-tkt" = some cs)
    (hos : getArg req "other-tkt" = some os)
    (hty : getArg req "relation-type" = some ty)
    (htyne : ty ≠ "")
    (hc : parseNat? cs = some c) (ho : parseNat? os = some o) :
    (process_request env req).env.relations = env.relations ∨
    (process_request env req).env.relations = env.relations ++
      [if ty.front = '!' then
        ⟨env.nextRelId, "ticket", o, c, ty.drop 1, false⟩
       else
        ⟨env.nextRelId, "ticket", c, o, ty, false⟩] := by
  have hmk : (if ty.front = '!' then mkRelParsed env os cs (ty.drop 1)
       else mkRelParsed env cs os ty) =
      .ok (if ty.front = '!' then
        (⟨env.nextRelId, "ticket", o, c, ty.drop 1, false⟩ : Relation)
       else ⟨env.nextRelId, "ticket", c, o, ty, false⟩) := by
    by_cases hb : ty.front = '!' <;> simp [hb, mkRelParsed, hc, ho]
  set rel : Relation := (if ty.front = '!' then
      (⟨env.nextRelId, "ticket", o, c, ty.drop 1, false⟩ : Relation)
     else ⟨env.nextRelId, "ticket", c, o, ty, false⟩) with hreldef
  cases hadded : add_relation env rel with
  | error e =>
    have hcaught := add_relation_error_caught env rel e hadded
    have hatt : addAttempt env cs os ty = .error e := by
      unfold addAttempt
      rw [if_neg htyne, hmk]
      simp [hadded]
    have hpa := postAction_add_warning env req cs os ty e hadd hcs hos hty hatt hcaught
    rw [process_request_post_none env req tkt env [warnMsg e] [] hview hres hm hmod hpa]
    exact Or.inl rfl
  | ok envAfter =>
    have hatt : addAttempt env cs os ty = .ok (envAfter, rel) := by
      unfold addAttempt
      rw [if_neg htyne, hmk]
      simp [hadded]
    have hpa := postAction_add_ok env req cs os ty envAfter rel hadd hcs hos hty hatt
    rw [process_request_post_none env req tkt envAfter [] [noticeAdd rel] hview hres hm hmod hpa]
    right
    have : envAfter.relations = env.relations ++ [{ rel with id := env.nextRelId, renderReverse := false }] := by
      unfold add_relation at hadded
      split at hadded
      · simp at hadded
      · split at hadded
        · simp at hadded
        · split at hadded
          · simp at hadded
          · simp only [Except.ok.injEq] at hadded
            rw [← hadded]
    rw [this, hreldef]
    by_cases hb : ty.front = '!' <;> simp [hb]

/-- The remove loop, on distinct and existing selected ids, deletes exactly
the selected rows, keeps all others, and raises nothing. -/
theorem removeLoop_spec :
    ∀ (sel : List String) (env : Env) (notices : List String),
      (∀ s ∈ sel, ∃ i, parseNat? s = some i ∧ ∃ r ∈ env.relations, r.id = i) →
      (sel.filterMap parseNat?).Nodup →
      (removeLoop env notices sel).1.relations =
        env.relations.filter (fun r => !(sel.filterMap parseNat?).contains r.id) ∧
      (removeLoop env notices sel).2.2 = none := by
  intro sel
  induction sel with
  | nil =>
    intro env notices _ _
    exact ⟨by simp [removeLoop], rfl⟩
  | cons s rest ih =>
    intro env notices hex hnd
    obtain ⟨i, hsi, r0, hr0, hid⟩ := hex s (by simp)
    have hfindSome : (env.relations.find? (fun r => decide (r.id = i))).isSome := by
      rw [List.find?_isSome]
      exact ⟨r0, hr0, by simp [hid]⟩
    obtain ⟨rel, hrel⟩ := Option.isSome_iff_exists.mp hfindSome
    have hrelid : rel.id = i := by simpa using List.find?_some hrel
    have hids : (s :: rest).filterMap parseNat? =
        i :: rest.filterMap parseNat? := by
      simp [List.filterMap_cons, hsi]
    rw [hids] at hnd
    have hnotin : i ∉ rest.filterMap parseNat? := (List.nodup_cons.mp hnd).1
    have hndrest : (rest.filterMap parseNat?).Nodup := (List.nodup_cons.mp hnd).2
    have hexrest : ∀ s2 ∈ rest, ∃ i2, parseNat? s2 = some i2 ∧
        ∃ r ∈ (delete_relation env rel).relations, r.id = i2 := by
      intro s2 hs2
      obtain ⟨i2, hs2i, r2, hr2, hid2⟩ := hex s2 (by simp [hs2])
      have hi2mem : i2 ∈ rest.filterMap parseNat? :=
        List.mem_filterMap.mpr ⟨s2, hs2, hs2i⟩
      have hne : i2 ≠ i := fun h => hnotin (h ▸ hi2mem)
      refine ⟨i2, hs2i, r2, ?_, hid2⟩
      simp only [delete_relation]
      exact List.mem_filter.mpr ⟨hr2, by simp [hid2, hrelid, hne]⟩
    have hloop : removeLoop env notices (s :: rest) =
        removeLoop (delete_relation env rel) (notices ++ [noticeDel rel]) rest := by
      simp [removeLoop, hsi, hrel]
    obtain ⟨ihrel, iherr⟩ := ih (delete_relation env rel) (notices ++ [noticeDel rel])
      hexrest hndrest
    rw [hloop, hids]
    refine ⟨?_, iherr⟩
    rw [ihrel]
    simp only [delete_relation]
    rw [List.filter_filter]
    refine List.filter_congr ?_
    intro r _
    subst hrelid
    simp [List.contains_cons, Bool.and_comm]

/-- The remove branch of a POST reduces to the remove loop. -/
theorem postAction_remove (env : Env) (req : Req)
    (envAfter : Env) (ns : List String) (err : Option PErr)
    (hnoadd : truthy (getArg req "add-relation") = false)
    (hrem : truthy (getArg req "remove-relation") = true)
    (hloop : removeLoop env [] req.sel = (envAfter, ns, err)) :
    postAction env req = (envAfter, [], ns, err) := by
  simp [postAction, hnoadd, hrem, hloop]

/-- C4: a remove-relation POST whose selected ids are distinct and all
present deletes exactly the rows with those ids: each selected row is gone
and every row whose id is not selected is kept; the request completes with a
redirect. -/
theorem remove_relation_exact (env : Env) (req : Req) (tkt : Ticket)
    (hview : hasPerm req "TICKET_VIEW" = true)
    (hres : resolveTkt env req = some tkt)
    (hm : req.method = "POST")
    (hmod : hasPerm req "TICKET_MODIFY" = true)
    (hnoadd : truthy (getArg req "add-relation") = false)
    (hrem : truthy (getArg req "remove-relation") = true)
    (hex : ∀ s ∈ req.sel, ∃ i, parseNat? s = some i ∧ ∃ r ∈ env.relations, r.id = i)
    (hnd : (req.sel.filterMap parseNat?).Nodup) :
    (process_request env req).env.relations =
      env.relations.filter
        (fun r => !(req.sel.filterMap parseNat?).contains r.id) ∧
    ∃ u, (process_request env req).outcome = .ok (.redirect u) := by
  obtain ⟨hrels, herr⟩ := removeLoop_spec req.sel env [] hex hnd
  rcases hloop : removeLoop env [] req.sel with ⟨envAfter, ns, err⟩
  rw [hloop] at hrels herr
  simp only at hrels herr
  subst herr
  have hpa := postAction_remove env req envAfter ns none hnoadd hrem hloop
  rw [process_request_post_none env req tkt envAfter [] ns hview hres hm hmod hpa]
  exact ⟨hrels, _, rfl⟩

/-- C6: a missing TICKET_VIEW permission or, on POST, a missing
TICKET_MODIFY permission raises a permission error; a ticket id that does
not resolve raises a not-found error; a caught validation failure during an
add surfaces as a single user-visible warning and the request still
completes with a redirect, the state unchanged. -/
theorem request_error_handling (env : Env) (req : Req) :
    (hasPerm req "TICKET_VIEW" = false →
      process_request env req = ⟨env, [], [], .error .permissionError⟩) ∧
    (hasPerm req "TICKET_VIEW" = true → resolveTkt env req = none →
      process_request env req = ⟨env, [], [], .error .resourceNotFound⟩) ∧
    (∀ tkt, hasPerm req "TICKET_VIEW" = true → resolveTkt env req = some tkt →
      req.method = "POST" → hasPerm req "TICKET_MODIFY" = false →
      process_request env req = ⟨env, [], [], .error .permissionError⟩) ∧
    (∀ tkt cs os ty e, hasPerm req "TICKET_VIEW" = true →
      resolveTkt env req = some tkt → req.method = "POST" →
      hasPerm req "TICKET_MODIFY" = true →
      truthy (getArg req "add-relation") = true →
      getArg req "current-tkt" = some cs → getArg req "other-tkt" = some os →
      getArg req "relation-type" = some ty →
      addAttempt env cs os ty = .error e → caughtErr e = true →
      (process_request env req).env = env ∧
      (process_request env req).warnings = [warnMsg e] ∧
      (process_request env req).notices = [] ∧
      ∃ u, (process_request env req).outcome = .ok (.redirect u)) := by
  refine ⟨?_, ?_, ?_, ?_⟩
  · intro hv
    simp [process_request, hv]
  · intro hv hr
    simp [process_request, hv, hr]
  · intro tkt hv hr hm hmod
    simp [process_request, hv, hr, hm, hmod]
  · intro tkt cs os ty e hv hr hm hmod hadd hcs hos hty herr hc
    have hpa := postAction_add_warning env req cs os ty e hadd hcs hos hty herr hc
    rw [process_request_post_none env req tkt env [warnMsg e] [] hv hr hm hmod hpa]
    exact ⟨rfl, rfl, rfl, _, rfl⟩

/-- Removing a literal prefix succeeds exactly on the lists carrying it. -/
theorem dropPre_eq_some : ∀ (p l r : List Char), dropPre p l = some r ↔ l = p ++ r := by
  intro p
  induction p with
  | nil => intro l r; simp [dropPre]
  | cons p0 ps ih =>
    intro l r
    cases l with
    | nil => simp [dropPre]
    | cons c cs =>
      simp only [dropPre]
      by_cases h : p0 = c
      · subst h
        rw [if_pos rfl, ih]
        simp
      · rw [if_neg h]
        constructor
        · intro hx; exact absurd hx (by simp)
        · intro hx
          injection hx with h1 _
          exact absurd h1.symm h

/-- Dropping slashes consumes a slash run entirely. -/
theorem dropWhile_slash_replicate :
    ∀ k, (List.replicate k '/').dropWhile (fun c => decide (c = '/')) = [] := by
  intro k
  induction k with
  | zero => rfl
  | succ k ih =>
    rw [List.replicate_succ, List.dropWhile_cons_of_pos (by decide)]
    exact ih

/-- Exact characterization of the path match inside `match_request`. -/
theorem matchRelPath_eq_some (s : String) (d : String) :
    matchRelPath s = some d ↔
      d.toList ≠ [] ∧ (∀ c ∈ d.toList, c.isDigit = true) ∧
      ∃ k, s.toList = "/ticket/".toList ++ d.toList ++ "/relations".toList ++
              List.replicate k '/' ∨
           s.toList = "/ticket/".toList ++ d.toList ++ "/relations".toList ++
              List.replicate k '/' ++ ['\n'] := by
  constructor
  · intro h
    unfold matchRelPath at h
    cases h1 : dropPre "/ticket/".toList s.toList with
    | none => rw [h1] at h; simp at h
    | some r1 =>
      rw [h1] at h
      dsimp only at h
      by_cases hds : r1.takeWhile Char.isDigit = []
      · rw [if_pos hds] at h; simp at h
      · rw [if_neg hds] at h
        cases h2 : dropPre "/relations".toList (r1.dropWhile Char.isDigit) with
        | none => rw [h2] at h; simp at h
        | some r3 =>
          rw [h2] at h
          dsimp only at h
          by_cases h4 : r3.dropWhile (fun c => decide (c = '/')) = [] ∨
              r3.dropWhile (fun c => decide (c = '/')) = ['\n']
          · rw [if_pos h4] at h
            simp only [Option.some.injEq] at h
            have hd : d.toList = r1.takeWhile Char.isDigit := by rw [← h]; rfl
            have key : s.toList = "/ticket/".toList ++
                (r1.takeWhile Char.isDigit ++ ("/relations".toList ++
                  (r3.takeWhile (fun c => decide (c = '/')) ++
                    r3.dropWhile (fun c => decide (c = '/'))))) := by
              have hs1 : s.toList = "/ticket/".toList ++ r1 :=
                (dropPre_eq_some _ _ _).mp h1
              have hr2 : r1.dropWhile Char.isDigit = "/relations".toList ++ r3 :=
                (dropPre_eq_some _ _ _).mp h2
              rw [hs1]
              congr 1
              conv_lhs => rw [← List.takeWhile_append_dropWhile Char.isDigit r1]
              congr 1
              rw [hr2]
              congr 1
              conv_lhs => rw [← List.takeWhile_append_dropWhile
                (fun c => decide (c = '/')) r3]
            have hsl : r3.takeWhile (fun c => decide (c = '/')) =
                List.replicate (r3.takeWhile (fun c => decide (c = '/'))).length '/' := by
              apply List.eq_replicate_of_mem
              intro b hb
              simpa using List.mem_takeWhile_imp hb
            refine ⟨by rw [hd]; exact hds,
              by rw [hd]; intro c hc; exact List.mem_takeWhile_imp hc,
              (r3.takeWhile (fun c => decide (c = '/'))).length, ?_⟩
            rcases h4 with h4 | h4
            · left
              rw [hd, key, h4, ← hsl]
              simp [List.append_assoc]
            · right
              rw [hd, key, h4, ← hsl]
              simp [List.append_assoc]
          · rw [if_neg h4] at h; simp at h
  · rintro ⟨hne, hdig, k, hcase⟩
    have hsplit : ∃ tail : List Char,
        (tail = List.replicate k '/' ∨ tail = List.replicate k '/' ++ ['\n']) ∧
        s.toList = "/ticket/".toList ++ d.toList ++ "/relations".toList ++ tail := by
      rcases hcase with hcase | hcase
      · exact ⟨List.replicate k '/', Or.inl rfl, hcase⟩
      · exact ⟨List.replicate k '/' ++ ['\n'], Or.inr rfl,
          by rw [hcase]; simp [List.append_assoc]⟩
    obtain ⟨tail, htail, hs⟩ := hsplit
    unfold matchRelPath
    have h1 : dropPre "/ticket/".toList s.toList =
        some (d.toList ++ ("/relations".toList ++ tail)) := by
      rw [dropPre_eq_some, hs]
      simp [List.append_assoc]
    rw [h1]
    dsimp only
    have hmid : "/relations".toList ++ tail = '/' :: ("relations".toList ++ tail) := rfl
    have htw : (d.toList ++ ("/relations".toList ++ tail)).takeWhile Char.isDigit
        = d.toList := by
      rw [List.takeWhile_append_of_pos hdig, hmid,
        List.takeWhile_cons_of_neg (by decide)]
      simp
    have hdw : (d.toList ++ ("/relations".toList ++ tail)).dropWhile Char.isDigit
        = "/relations".toList ++ tail := by
      rw [List.dropWhile_append_of_pos hdig, hmid,
        List.dropWhile_cons_of_neg (by decide)]
    rw [htw, hdw, if_neg hne]
    have h2 : dropPre "/relations".toList ("/relations".toList ++ tail) = some tail := by
      rw [dropPre_eq_some]
    rw [h2]
    dsimp only
    have hslash : tail.dropWhile (fun c => decide (c = '/')) = [] ∨
        tail.dropWhile (fun c => decide (c = '/')) = ['\n'] := by
      rcases htail with rfl | rfl
      · exact Or.inl (dropWhile_slash_replicate k)
      · right
        rw [List.dropWhile_append_of_pos
            (by intro a ha; simp [List.eq_of_mem_replicate ha]),
          List.dropWhile_cons_of_neg (by decide)]
    rw [if_pos hslash]
    rfl

/-- C8 counterexample: the code accepts a relations path that ends in a
newline, although that path does not have the shape the claim describes. -/
theorem match_request_trailing_newline :
    (match_request reqNl).1 = true ∧ ¬ relPathSpec reqNl.path_info := by
  constructor
  · rfl
  · rintro ⟨ds, k, hne, hdig, heq⟩
    have hlast : reqNl.path_info.toList.getLast? = some '\x0a' := rfl
    rw [heq] at hlast
    rcases Nat.eq_zero_or_pos k with hk | hk
    · subst hk
      rw [List.replicate_zero, List.append_nil,
        List.getLast?_append_of_ne_nil _ (by simp)] at hlast
      exact absurd hlast (by decide)
    · rw [List.getLast?_append_of_ne_nil _
          (by simp only [ne_eq, List.replicate_eq_nil_iff]; omega)] at hlast
      rw [List.getLast?_replicate, if_neg (by omega)] at hlast
      exact absurd hlast (by decide)

/-- C8 amended: `match_request` returns true exactly on paths of the shape
slash ticket slash digits slash relations with optional trailing slashes,
optionally ended by one newline character (Python re dollar semantics); on a
match the captured digit string becomes the `id` request argument, and on a
mismatch the request is returned unchanged. -/
theorem match_request_spec (req : Req) :
    ((match_request req).1 = true ↔ relPathSpecPy req.path_info) ∧
    (∀ d, matchRelPath req.path_info = some d →
      (match_request req).2 = { req with args := setArg req.args "id" d } ∧
      d.toList ≠ [] ∧ (∀ c ∈ d.toList, c.isDigit = true) ∧
      ∃ k, req.path_info.toList = "/ticket/".toList ++ d.toList ++
              "/relations".toList ++ List.replicate k '/' ∨
           req.path_info.toList = "/ticket/".toList ++ d.toList ++
              "/relations".toList ++ List.replicate k '/' ++ ['\n']) ∧
    ((match_request req).1 = false → (match_request req).2 = req) := by
  refine ⟨⟨?_, ?_⟩, ?_, ?_⟩
  · intro h
    unfold match_request at h
    cases hm : matchRelPath req.path_info with
    | none => rw [hm] at h; simp at h
    | some d =>
      obtain ⟨hne, hdig, k, hk⟩ := (matchRelPath_eq_some _ _).mp hm
      exact ⟨d.toList, k, hne, hdig, hk⟩
  · rintro ⟨ds, k, hne, hdig, hcase⟩
    have hm : matchRelPath req.path_info = some (String.mk ds) := by
      rw [matchRelPath_eq_some]
      exact ⟨hne, hdig, k, hcase⟩
    simp [match_request, hm]
  · intro d hm
    obtain ⟨hne, hdig, k, hk⟩ := (matchRelPath_eq_some _ _).mp hm
    exact ⟨by simp [match_request, hm], hne, hdig, k, hk⟩
  · intro h
    unfold match_request at h ⊢
    cases hm : matchRelPath req.path_info with
    | none => simp [hm]
    | some d => rw [hm] at h; simp at h

/-- The state a successful `add_relation` returns: the old rows followed by
the new row under the fresh id. -/
theorem add_relation_ok (env : Env) (rel : Relation) (envAfter : Env)
    (h : add_relation env rel = .ok envAfter) :
    envAfter = { env with
      relations := env.relations ++
        [{ rel with id := env.nextRelId, renderReverse := false }],
      nextRelId := env.nextRelId + 1 } := by
  unfold add_relation at h
  split at h
  · simp at h
  · split at h
    · simp at h
    · split at h
      · simp at h
      · simp only [Except.ok.injEq] at h
        exact h.symm

/-- Every relation present after the remove loop was present before. -/
theorem removeLoop_sub :
    ∀ (sel : List String) (env : Env) (notices : List String) (r : Relation),
      r ∈ (removeLoop env notices sel).1.relations → r ∈ env.relations := by
  intro sel
  induction sel with
  | nil => intro env notices r h; simpa [removeLoop] using h
  | cons s rest ih =>
    intro env notices r h
    cases hsi : parseNat? s with
    | none => simpa [removeLoop, hsi] using h
    | some i =>
      cases hf : env.relations.find? (fun x => decide (x.id = i)) with
      | none => simpa [removeLoop, hsi, hf] using h
      | some rel =>
        have h2 := ih (delete_relation env rel) (notices ++ [noticeDel rel]) r
          (by simpa [removeLoop, hsi, hf] using h)
        simp only [delete_relation] at h2
        exact List.mem_of_mem_filter h2

/-- The three possible effects of the POST body on the stored relations:
no change, one appended row under a fresh id in the add branch, or a subset
of the old rows in the remove branch. -/
theorem postAction_cases (env : Env) (req : Req) :
    (postAction env req).1 = env ∨
    (truthy (getArg req "add-relation") = true ∧
      ∃ rel : Relation, (postAction env req).1.relations = env.relations ++
        [{ rel with id := env.nextRelId, renderReverse := false }] ∧
        (postAction env req).1.nextRelId = env.nextRelId + 1) ∨
    (truthy (getArg req "add-relation") = false ∧
      truthy (getArg req "remove-relation") = true ∧
      ∀ r ∈ (postAction env req).1.relations, r ∈ env.relations) := by
  by_cases hadd : truthy (getArg req "add-relation") = true
  · cases hcs : getArg req "current-tkt" with
    | none =>
      left
      cases hos : getArg req "other-tkt" <;>
        cases hty : getArg req "relation-type" <;>
          simp [postAction, hadd, hcs, hos, hty]
    | some cs =>
      cases hos : getArg req "other-tkt" with
      | none =>
        left
        cases hty : getArg req "relation-type" <;>
          simp [postAction, hadd, hcs, hos, hty]
      | some os =>
        cases hty : getArg req "relation-type" with
        | none => left; simp [postAction, hadd, hcs, hos, hty]
        | some ty =>
          cases hatt : addAttempt env cs os ty with
          | error e =>
            left
            by_cases hc : caughtErr e = true <;>
              simp [postAction, hadd, hcs, hos, hty, hatt, hc]
          | ok pr =>
            right; left
            refine ⟨hadd, pr.2, ?_⟩
            have hadded : add_relation env pr.2 = .ok pr.1 := by
              unfold addAttempt at hatt
              split at hatt
              · simp at hatt
              · cases hmk : (if ty.front = '!' then mkRelParsed env os cs (ty.drop 1)
                    else mkRelParsed env cs os ty) with
                | error e => rw [hmk] at hatt; simp at hatt
                | ok rel =>
                  rw [hmk] at hatt
                  dsimp only at hatt
                  cases hadd2 : add_relation env rel with
                  | error e => rw [hadd2] at hatt; simp at hatt
                  | ok envAfter =>
                    rw [hadd2] at hatt
                    simp only [Except.ok.injEq] at hatt
                    rw [← hatt]
                    exact hadd2
            have hstruct := add_relation_ok env pr.2 pr.1 hadded
            have hpa : (postAction env req).1 = pr.1 := by
              simp [postAction, hadd, hcs, hos, hty, hatt]
            rw [hpa, hstruct]
            exact ⟨rfl, rfl⟩
  · have hadd2 : truthy (getArg req "add-relation") = false := by
      simpa using hadd
    by_cases hrem : truthy (getArg req "remove-relation") = true
    · right; right
      refine ⟨hadd2, hrem, ?_⟩
      rcases hloop : removeLoop env [] req.sel with ⟨envAfter, ns, err⟩
      have hpa : (postAction env req).1 = envAfter := by
        simp [postAction, hadd2, hrem, hloop]
      rw [hpa]
      intro r hr
      have := removeLoop_sub req.sel env [] r (by rw [hloop]; exact hr)
      exact this
    · left
      have hrem2 : truthy (getArg req "remove-relation") = false := by
        simpa using hrem
      simp [postAction, hadd2, hrem2]

/-- The three possible effects of one request on the stored relations. -/
theorem process_request_env_cases (env : Env) (req : Req) :
    (process_request env req).env = env ∨
    (req.method = "POST" ∧ truthy (getArg req "add-relation") = true ∧
      ∃ rel : Relation, (process_request env req).env.relations = env.relations ++
        [{ rel with id := env.nextRelId, renderReverse := false }] ∧
        (process_request env req).env.nextRelId = env.nextRelId + 1) ∨
    (req.method = "POST" ∧ truthy (getArg req "add-relation") = false ∧
      truthy (getArg req "remove-relation") = true ∧
      ∀ r ∈ (process_request env req).env.relations, r ∈ env.relations) := by
  cases hv : hasPerm req "TICKET_VIEW" with
  | false => left; simp [process_request, hv]
  | true =>
    cases hr : resolveTkt env req with
    | none => left; simp [process_request, hv, hr]
    | some tkt =>
      by_cases hm : req.method = "POST"
      · cases hmod : hasPerm req "TICKET_MODIFY" with
        | false => left; simp [process_request, hv, hr, hm, hmod]
        | true =>
          rcases hpa : postAction env req with ⟨envAfter, ws, ns, err⟩
          have henv : (process_request env req).env = envAfter := by
            cases err <;> simp [process_request, hv, hr, hm, hmod, hpa]
          rcases postAction_cases env req with hc | hc | hc
          · left; rw [henv, ← hc, hpa]
          · right; left
            obtain ⟨h1, rel, h2, h3⟩ := hc
            rw [hpa] at h2 h3
            exact ⟨hm, h1, rel, by rw [henv]; exact h2, by rw [henv]; exact h3⟩
          · right; right
            obtain ⟨h1, h2, h3⟩ := hc
            refine ⟨hm, h1, h2, ?_⟩
            rw [henv]
            intro r hrr
            exact h3 r (by rw [hpa]; exact hrr)
      · left; simp [process_request, hv, hr, hm]

/-- C5 counterexample: resolving a ticket as a duplicate creates a relation
row through `ticket_changed`, an operation that is neither the add-relation
form action nor the remove-relation action. -/
theorem relation_created_outside_add_form :
    relC5 ∈ (step envC5 opC5).relations ∧ relC5 ∉ envC5.relations ∧
    isAddOp opC5 = false ∧ isRemoveOp opC5 = false := by
  refine ⟨?_, by simp [envC5, relC5], rfl, rfl⟩
  have : (step envC5 opC5).relations = [relC5] := rfl
  rw [this]
  simp

/-- C5 amended: relation rows are created only by the add-relation form
action or by the automatic duplicate relation of a resolution change, always
under a fresh id, never replacing a stored row; rows are destroyed only by
the remove-relation action; no operation rewrites a stored row in place. -/
theorem relation_lifecycle (env : Env) (op : Op)
    (hwf : ∀ r ∈ env.relations, r.id < env.nextRelId) :
    (∀ r2 ∈ (step env op).relations, r2 ∈ env.relations ∨
      ((isAddOp op = true ∨ isDupResolveOp op = true) ∧
        ∀ r ∈ env.relations, r.id ≠ r2.id)) ∧
    (∀ r ∈ env.relations, r ∉ (step env op).relations → isRemoveOp op = true) := by
  cases op with
  | tktCreated t =>
    constructor
    · intro r2 h2
      left
      simpa [step, ticket_created] using h2
    · intro r hr habs
      exact absurd (by simpa [step, ticket_created] using hr) habs
  | tktChanged t o =>
    cases hch : ticket_changed env t o with
    | error e =>
      constructor
      · intro r2 h2; left; simpa [step, hch] using h2
      · intro r hr habs; exact absurd (by simpa [step, hch] using hr) habs
    | ok envAfter =>
      have hstep : step env (.tktChanged t o) = envAfter := by simp [step, hch]
      unfold ticket_changed at hch
      obtain ⟨x, hx, hAfter⟩ := exceptMap_ok _ _ _ hch
      have hrels : envAfter.relations = x.relations := by
        rw [hAfter]; rfl
      by_cases ho : o = true
      · by_cases hres : t.resolution = "duplicate"
        · rw [if_pos ho, if_pos hres] at hx
          cases hn : parseNat? (stripChars t.relationdata) with
          | none => rw [hn] at hx; simp at hx
          | some dnum =>
            rw [hn] at hx
            dsimp only at hx
            have hstruct := add_relation_ok env _ x hx
            constructor
            · intro r2 h2
              rw [hstep, hrels, hstruct] at h2
              simp only [List.mem_append, List.mem_singleton] at h2
              rcases h2 with h2 | h2
              · exact Or.inl h2
              · right
                refine ⟨Or.inr (by simp [isDupResolveOp, ho, hres]), ?_⟩
                intro r hrmem
                rw [h2]
                exact Nat.ne_of_lt (hwf r hrmem)
            · intro r hr habs
              exfalso
              apply habs
              rw [hstep, hrels, hstruct]
              exact List.mem_append_left _ hr
        · rw [if_pos ho, if_neg hres] at hx
          simp only [Except.ok.injEq] at hx
          subst hx
          constructor
          · intro r2 h2; left; rw [hstep, hrels] at h2; exact h2
          · intro r hr habs
            exact absurd (by rw [hstep, hrels]; exact hr) habs
      · rw [if_neg ho] at hx
        simp only [Except.ok.injEq] at hx
        subst hx
        constructor
        · intro r2 h2; left; rw [hstep, hrels] at h2; exact h2
        · intro r hr habs
          exact absurd (by rw [hstep, hrels]; exact hr) habs
  | procReq req =>
    have hstep : step env (.procReq req) = (process_request env req).env := rfl
    rcases process_request_env_cases env req with hc | hc | hc
    · constructor
      · intro r2 h2; left; rw [hstep, hc] at h2; exact h2
      · intro r hr habs; exact absurd (by rw [hstep, hc]; exact hr) habs
    · obtain ⟨hm, hadd, rel, h2, _⟩ := hc
      constructor
      · intro r2 hr2
        rw [hstep, h2] at hr2
        simp only [List.mem_append, List.mem_singleton] at hr2
        rcases hr2 with hr2 | hr2
        · exact Or.inl hr2
        · right
          refine ⟨Or.inl (by simp [isAddOp, hm, hadd]), ?_⟩
          intro r hrmem
          rw [hr2]
          exact Nat.ne_of_lt (hwf r hrmem)
      · intro r hr habs
        exfalso
        apply habs
        rw [hstep, h2]
        exact List.mem_append_left _ hr
    · obtain ⟨hm, hadd, hrem, hsub⟩ := hc
      constructor
      · intro r2 hr2
        left
        exact hsub r2 (by rw [← hstep]; exact hr2)
      · intro r hr habs
        simp [isRemoveOp, hm, hadd, hrem]

/-- Witness for the blocking-closure claim at a concrete state. -/
theorem closed_ticket_blocking_problems_w :
    tktW.status = "closed" ∧
    validate_ticket envW tktW = .ok probsW ∧
    ∃ rest, probsW =
      ((selectBlocking envW tktW.id).filter (fun r => openTkt envW r.source)).map
        (fun r => ((none : Option String), blockMsg r.source)) ++ rest :=
  ⟨rfl, rfl, closed_ticket_blocking_problems envW tktW probsW rfl rfl⟩

/-- Witness for the parent-child-closure claim at a concrete state. -/
theorem closed_ticket_parentchild_problems_w :
    tktW.status = "closed" ∧
    validate_ticket envW tktW = .ok probsW ∧
    ∃ pre rest, probsW = pre ++
      ((selectParentChild envW tktW.id).filter (fun r => openTkt envW r.dest)).map
        (fun r => ((none : Option String), childMsg r.dest)) ++ rest :=
  ⟨rfl, rfl, closed_ticket_parentchild_problems envW tktW probsW rfl rfl⟩

/-- Witness for the duplicate-add rejection at a concrete state. -/
theorem duplicate_add_rejected_w :
    (process_request envW reqW3).env = envW ∧
    (∃ w, (process_request envW reqW3).warnings = [w]) ∧
    (process_request envW reqW3).notices = [] ∧
    ∃ u, (process_request envW reqW3).outcome = .ok (.redirect u) :=
  duplicate_add_rejected envW reqW3 tktW "2" "1" "blocking" 2 1
    rfl rfl rfl rfl rfl rfl rfl rfl (by decide) rfl rfl (by decide)

/-- Witness for the exact-removal claim at a concrete state. -/
theorem remove_relation_exact_w :
    (process_request envW reqW4).env.relations =
      envW.relations.filter
        (fun r => !(reqW4.sel.filterMap parseNat?).contains r.id) ∧
    ∃ u, (process_request envW reqW4).outcome = .ok (.redirect u) :=
  remove_relation_exact envW reqW4 tktW rfl rfl rfl rfl rfl rfl
    (by
      intro s hs
      have hseq : s = "10" := by simpa [reqW4] using hs
      subst hseq
      exact ⟨10, rfl, relB, by decide, rfl⟩)
    (by decide)

/-- Witness for the amended lifecycle claim at a concrete state. -/
theorem relation_lifecycle_w :
    (∀ r2 ∈ (step envC5 opC5).relations, r2 ∈ envC5.relations ∨
      ((isAddOp opC5 = true ∨ isDupResolveOp opC5 = true) ∧
        ∀ r ∈ envC5.relations, r.id ≠ r2.id)) ∧
    (∀ r ∈ envC5.relations, r ∉ (step envC5 opC5).relations →
      isRemoveOp opC5 = true) :=
  relation_lifecycle envC5 opC5 (by simp [envC5])

/-- Witness for the error-handling claim at four concrete requests. -/
theorem request_error_handling_w :
    process_request envW reqW6a = ⟨envW, [], [], .error .permissionError⟩ ∧
    process_request envW reqW6b = ⟨envW, [], [], .error .resourceNotFound⟩ ∧
    process_request envW reqW6c = ⟨envW, [], [], .error .permissionError⟩ ∧
    ((process_request envW reqW6d).env = envW ∧
     (process_request envW reqW6d).warnings = [warnMsg .validationError] ∧
     (process_request envW reqW6d).notices = [] ∧
     ∃ u, (process_request envW reqW6d).outcome = .ok (.redirect u)) :=
  ⟨(request_error_handling envW reqW6a).1 rfl,
   (request_error_handling envW reqW6b).2.1 rfl rfl,
   (request_error_handling envW reqW6c).2.2.1 tktW rfl rfl rfl rfl,
   (request_error_handling envW reqW6d).2.2.2 tktW "1" "2" "bogus" .validationError
     rfl rfl rfl rfl rfl rfl rfl rfl rfl rfl⟩

/-- Witness for the transient-row cleanup claim at a concrete state. -/
theorem relationdata_rows_deleted_w :
    ticket_changed envW7 tktW false = .ok envW7after ∧
    (∀ row ∈ envW7after.ticketChangeRows,
      ¬ (row.1 = tktW.id ∧ row.2 = "relationdata")) ∧
    (∀ row ∈ envW7after.ticketCustomRows,
      ¬ (row.1 = tktW.id ∧ row.2 = "relationdata")) :=
  ⟨rfl, (relationdata_rows_deleted.1 envW7 tktW false envW7after rfl).1,
    (relationdata_rows_deleted.1 envW7 tktW false envW7after rfl).2⟩

/-- Witness for the amended path-matching claim at a concrete request. -/
theorem match_request_spec_w :
    ((match_request reqW8).1 = true ↔ relPathSpecPy reqW8.path_info) ∧
    (match_request reqW8).2 = { reqW8 with args := setArg reqW8.args "id" "42" } :=
  ⟨(match_request_spec reqW8).1, ((match_request_spec reqW8).2.1 "42" rfl).1⟩

/-- Witness for the reversal claim at a concrete request. -/
theorem add_relation_reversal_w :
    (process_request envW reqW9).env.relations = envW.relations ∨
    (process_request envW reqW9).env.relations = envW.relations ++
      [if ("!relation" : String).front = '!' then
        (⟨envW.nextRelId, "ticket", 3, 1, ("!relation" : String).drop 1, false⟩ : Relation)
       else ⟨envW.nextRelId, "ticket", 1, 3, "!relation", false⟩] :=
  add_relation_reversal envW reqW9 tktW "1" "3" "!relation" 1 3
    rfl rfl rfl rfl rfl rfl rfl rfl (by decide) rfl rfl

/-- Witness for the rendering claim at concrete relations. -/
theorem render_cases_w :
    render (fun x => x) relB ⟨false, none⟩ = "" ∧
    render (fun x => x) relB ⟨true, none⟩ =
      (if relB.renderReverse then
        "!#" ++ toString relB.dest ++ " " ++ qq ++ (relLabels relB.rtype).2 ++ qq ++
          " #" ++ toString relB.source
      else
        "!#" ++ toString relB.source ++ " " ++ qq ++ (relLabels relB.rtype).1 ++ qq ++
          " #" ++ toString relB.dest) ∧
    relLabels relWeirdW.rtype = (relWeirdW.rtype, relWeirdW.rtype) :=
  ⟨(render_cases (fun x => x) relB ⟨false, none⟩).1 rfl,
   (render_cases (fun x => x) relB ⟨true, none⟩).2.1 rfl (Or.inl rfl),
   (render_cases (fun x => x) relWeirdW ⟨true, none⟩).2.2 rfl⟩

end TracRelations
